import Mathlib

/-!
Shallow embedding of the request-dispatch pipeline of the
`mcp-typescript-server` repository: the middleware chain
(`MiddlewareManager.execute`), the sliding-window rate limiter
(`rateLimitMiddleware`), the tool registry and dispatch-by-name logic of
`MCPTypeScriptServer.setupHandlers`, and the health sampler
(`HealthChecker.getHealthStatus`).

Modelling conventions:
* Timestamps are `Int` milliseconds (JavaScript `Date.now()`); the single
  `Date.now()` reads inside one request are identified with the request's
  capture timestamp, since the embedding treats a request as instantaneous.
* A JavaScript `Map<string, number[]>` is modelled extensionally as a
  function `String → List Int` (absent key ↔ empty list, matching the
  `if (!requests.has(clientId)) requests.set(clientId, [])` initialisation).
* `async` functions that may `throw` are modelled in the monad
  `M α = MState → Except String α × MState`: a thrown `Error` with message
  `m` is `Except.error m`, and `console`/logger output is an append-only
  log inside `MState` (message text keeps the method/tool names of the
  source; clock-derived fragments such as durations are omitted).
* `MiddlewareManager.execute` declares one mutable `index` variable shared
  by every invocation of the `next` closure.  That cell is modelled as the
  `index` field of the threaded state, reset to 0 when `execute` is
  entered, so that increments performed during an inner `next()` call stay
  visible to an outer stage that calls `next` again — exactly the source's
  cursor semantics.  The `next` closure itself is modelled by `nextF`,
  whose fuel argument only bounds the nesting depth of `next` frames;
  along any chain of nested frames the entry cursor strictly increases for
  stages that (like every stage in the repository) reach the cell only
  through `next`, so the fuel `middlewares.length + 1` supplied by
  `execute` is never exhausted on such chains.
-/

/-- Per-request context handed to every middleware stage
(`{ method, params, timestamp }` in `server.ts`; `params` is opaque
key-value data that no registered stage reads). -/
structure MWContext where
  method : String
  timestamp : Int
  deriving Repr, DecidableEq

/-- Mutable state threaded through one request: the logger sink, the rate
limiter's per-client timestamp map, and the shared `index` cursor of the
middleware chain (`let index = 0` in `MiddlewareManager.execute`; it lives
here because every mutation made inside a `next()` call must remain
visible to the stage that made the call). -/
structure MState where
  log : List String
  requests : String → List Int
  index : Nat

/-- The effect monad of the pipeline: state plus JavaScript exceptions
(an `Error` with a message string). -/
def M (α : Type) : Type := MState → Except String α × MState

/-- Append one line to the logger sink. -/
def pushLog (msg : String) (st : MState) : MState :=
  { st with log := st.log ++ [msg] }

/-- A middleware stage: `(context, next) => result`, where `next` runs the
rest of the chain (`MiddlewareFunction` in the source). -/
def Middleware (α : Type) : Type := MWContext → (Unit → M α) → M α

/-- The `next` closure of `MiddlewareManager.execute`: if the shared
cursor has passed the last stage, invoke the terminal handler; otherwise
run `middlewares[index++]`, handing it the same `next` closure.  The fuel
argument only bounds the nesting depth of `next` frames; since each frame
that runs a stage enters at a strictly larger cursor than its parent (for
stages that reach the cursor only through `next`), a nested chain has at
most `middlewares.length + 1` frames and the fuel-exhaustion branch is
unreachable from `execute`. -/
def nextF {α : Type} (middlewares : List (Middleware α)) (context : MWContext)
    (handler : Unit → M α) : Nat → Unit → M α
  | 0, _ => fun st => (Except.error "middleware fuel exhausted", st)
  | fuel + 1, _ => fun st =>
      match middlewares[st.index]? with
      | none => handler () st
      | some m =>
          m context (nextF middlewares context handler fuel)
            { st with index := st.index + 1 }

/-- `MiddlewareManager.execute`: set the shared cursor to 0, then run
`next()`; each stage receives the one `next` closure over the shared
cursor. -/
def execute {α : Type} (middlewares : List (Middleware α)) (context : MWContext)
    (handler : Unit → M α) : M α := fun st =>
  nextF middlewares context handler (middlewares.length + 1) ()
    { st with index := 0 }

/-- The sliding-window length: `now - 60000` in `rateLimitMiddleware`
(one minute of JavaScript milliseconds). -/
def windowMs : Int := 60000

/-- The client identifier used by `rateLimitMiddleware`
(`const clientId = 'default'` in the source). -/
def defaultClientId : String := "default"

/-- One `checkAndRecord` step of the rate limiter, exactly the body of the
closure returned by `rateLimitMiddleware`: prune entries at or before
`now - 60000`, store the pruned list, then either reject (when the pruned
count has reached the ceiling) without recording, or append `now` and
admit.  Returns `(admitted?, updated map)`. -/
def rateLimitStep (requestsPerMinute : Nat) (requests : String → List Int)
    (clientId : String) (now : Int) : Bool × (String → List Int) :=
  let windowStart := now - windowMs
  let recentRequests := (requests clientId).filter (fun time => windowStart < time)
  if requestsPerMinute ≤ recentRequests.length then
    (false, Function.update requests clientId recentRequests)
  else
    (true, Function.update requests clientId (recentRequests ++ [now]))

/-- `rateLimitMiddleware(requestsPerMinute)`: consult the window for the
current client; on rejection throw `'Rate limit exceeded'` without calling
`next`, otherwise record and call `next`. -/
def rateLimitMiddleware {α : Type} (requestsPerMinute : Nat) : Middleware α :=
  fun context next st =>
    let r := rateLimitStep requestsPerMinute st.requests defaultClientId context.timestamp
    let st' := { st with requests := r.2 }
    if r.1 then next () st'
    else (Except.error "Rate limit exceeded", st')

/-- `loggingMiddleware`: log the start of the request, call `next`, then
log completion (or log failure and re-throw the same error). -/
def loggingMiddleware {α : Type} : Middleware α :=
  fun context next st =>
    let st1 := pushLog ("Starting " ++ context.method) st
    match next () st1 with
    | (Except.ok result, st2) =>
        (Except.ok result, pushLog ("Completed " ++ context.method) st2)
    | (Except.error e, st2) =>
        (Except.error e, pushLog ("Failed " ++ context.method ++ ": " ++ e) st2)

/-- The state at server start: no log lines, no recorded requests, cursor
at 0. -/
def initState : MState := { log := [], requests := fun _ => [], index := 0 }

instance {ε α : Type} [DecidableEq ε] [DecidableEq α] : DecidableEq (Except ε α) :=
  fun a b =>
    match a, b with
    | Except.ok x, Except.ok y =>
        if h : x = y then isTrue (by rw [h])
        else isFalse (fun hc => h (Except.ok.inj hc))
    | Except.error x, Except.error y =>
        if h : x = y then isTrue (by rw [h])
        else isFalse (fun hc => h (Except.error.inj hc))
    | Except.ok _, Except.error _ => isFalse (fun hc => Except.noConfusion hc)
    | Except.error _, Except.ok _ => isFalse (fun hc => Except.noConfusion hc)

/-- Fold `rateLimitStep` over a history of `(clientId, now)` admission
checks, keeping the evolving per-client map. -/
def runRL (requestsPerMinute : Nat) (requests : String → List Int)
    (hist : List (String × Int)) : String → List Int :=
  hist.foldl (fun m p => (rateLimitStep requestsPerMinute m p.1 p.2).2) requests

/-- The timestamps a given client was admitted at, over a history of
admission checks threading the rate limiter's map. -/
def admittedOf (requestsPerMinute : Nat) (requests : String → List Int)
    (hist : List (String × Int)) (c : String) : List Int :=
  match hist with
  | [] => []
  | p :: rest =>
      let r := rateLimitStep requestsPerMinute requests p.1 p.2
      (if p.1 = c ∧ r.1 then [p.2] else []) ++ admittedOf requestsPerMinute r.2 rest c

/-- The time of the last admission check for a given client in a history,
if any. -/
def lastCheck (c : String) : List (String × Int) → Option Int
  | [] => none
  | p :: rest =>
      match lastCheck c rest with
      | some t => some t
      | none => if p.1 = c then some p.2 else none

/-- A history of admission checks arrives in nondecreasing time order. -/
abbrev TimesMono (hist : List (String × Int)) : Prop :=
  hist.Pairwise (fun p q => p.2 ≤ q.2)

-- Basic sanity checks of the embedding on concrete runs.
example : (rateLimitStep 2 (fun _ => []) "default" 0).1 = true := by decide
example :
    (rateLimitStep 2 (Function.update (fun _ => []) "default" [0, 1]) "default" 2).1
      = false := by decide

/-! ## Tool registry and dispatch (`server.ts`) -/

/-- One typed payload part of a `ToolResult` (`{ type, text }`). -/
structure ContentItem where
  type : String
  text : String
  deriving Repr, DecidableEq

/-- A tool invocation result: content parts plus the error flag
(absent `isError` in the source is the same as `false`). -/
structure ToolResult where
  content : List ContentItem
  isError : Bool := false
  deriving Repr, DecidableEq

/-- One property of a tool's declared input schema. -/
structure PropertySpec where
  name : String
  type : String
  description : String
  enumVals : List String := []
  deriving Repr, DecidableEq

/-- A tool's declared input schema (descriptive metadata only; the
dispatcher never validates arguments against it). -/
structure InputSchema where
  type : String
  properties : List PropertySpec
  required : List String
  deriving Repr, DecidableEq

/-- A tool definition as returned by `getDefinition()`. -/
structure ToolDefinition where
  name : String
  description : String
  inputSchema : InputSchema
  deriving Repr, DecidableEq

/-- Tool arguments: an opaque key-value record.  The dispatcher passes
them through without inspection, so their representation is irrelevant
to every property proved here. -/
structure ToolArgs where
  fields : List (String × String)
  deriving Repr, DecidableEq

/-- A registered tool object, viewed through the methods the dispatcher's
runtime switch can call on it.  Tool bodies are external collaborators
(they perform their own I/O and internal error handling), so each method
is an abstract function producing a `ToolResult` or throwing. -/
structure Tool where
  getDefinition : ToolDefinition
  calculate : ToolArgs → Except String ToolResult
  readFile : ToolArgs → Except String ToolResult
  writeFile : ToolArgs → Except String ToolResult
  listDirectory : ToolArgs → Except String ToolResult

/-- The tool registry: a JavaScript `Map` in insertion order. -/
abbrev ToolRegistry : Type := List (String × Tool)

/-- `Map.get`: the first (hence only) binding of a name. -/
def lookupTool (tools : ToolRegistry) (name : String) : Option Tool :=
  (tools.find? (fun p => p.1 = name)).map (fun p => p.2)

/-- `Map.set`: replace an existing binding in place, else append. -/
def registerTool (tools : ToolRegistry) (name : String) (tool : Tool) : ToolRegistry :=
  if tools.any (fun p => p.1 = name) then
    tools.map (fun p => if p.1 = name then (name, tool) else p)
  else tools ++ [(name, tool)]

/-- `CalculatorTool.getDefinition()` (from `tools/calculator.ts`). -/
def calculatorDefinition : ToolDefinition :=
  { name := "calculate"
    description := "Perform mathematical calculations with support for basic operations"
    inputSchema :=
      { type := "object"
        properties :=
          [{ name := "expression"
             type := "string"
             description := "Mathematical expression to evaluate (e.g., \"2 + 3 * 4\")" }]
        required := ["expression"] } }

/-- `FileManagerTool.getDefinition()` (from `tools/fileManager.ts`). -/
def fileManagerDefinition : ToolDefinition :=
  { name := "file_operations"
    description := "Manage files and directories with read, write, and list operations"
    inputSchema :=
      { type := "object"
        properties :=
          [{ name := "operation"
             type := "string"
             description := "Operation to perform"
             enumVals := ["read", "write", "list"] },
           { name := "path"
             type := "string"
             description := "File or directory path" },
           { name := "content"
             type := "string"
             description := "Content to write (required for write operation)" }]
        required := ["operation", "path"] } }

/-- A method that does not exist on the object: calling it raises a
JavaScript `TypeError`. -/
def methodMissing (method : String) : ToolArgs → Except String ToolResult :=
  fun _ => Except.error ("tool." ++ method ++ " is not a function")

/-- A `CalculatorTool` instance: only `calculate` exists, with an
externally supplied body. -/
def mkCalculatorTool (calcBody : ToolArgs → Except String ToolResult) : Tool :=
  { getDefinition := calculatorDefinition
    calculate := calcBody
    readFile := methodMissing "readFile"
    writeFile := methodMissing "writeFile"
    listDirectory := methodMissing "listDirectory" }

/-- A `FileManagerTool` instance: the three file methods exist, with
externally supplied bodies. -/
def mkFileManagerTool (rf wf ld : ToolArgs → Except String ToolResult) : Tool :=
  { getDefinition := fileManagerDefinition
    calculate := methodMissing "calculate"
    readFile := rf
    writeFile := wf
    listDirectory := ld }

/-- `initializeTools`: populate the registry from the two configuration
flags.  One `FileManagerTool` instance is registered under three names. -/
def initializeTools (calculatorEnabled fileManagerEnabled : Bool)
    (calculatorTool fileManagerTool : Tool) : ToolRegistry :=
  (if calculatorEnabled then [("calculate", calculatorTool)] else []) ++
    (if fileManagerEnabled then
      [("read_file", fileManagerTool), ("write_file", fileManagerTool),
       ("list_directory", fileManagerTool)]
    else [])

/-- The runtime method switch of the `tools/call` handler: route the four
known names to the corresponding method of the looked-up tool; any other
name throws `Unknown tool method`. -/
def switchMethod (name : String) (tool : Tool) (args : ToolArgs) :
    Except String ToolResult :=
  match name with
  | "calculate" => tool.calculate args
  | "read_file" => tool.readFile args
  | "write_file" => tool.writeFile args
  | "list_directory" => tool.listDirectory args
  | _ => Except.error ("Unknown tool method: " ++ name)

/-- Lookup-then-switch of the `tools/call` terminal handler, before its
`catch` block: an absent name throws `Tool '<name>' not found`, otherwise
the runtime switch runs the handler. -/
def dispatchRaw (tools : ToolRegistry) (name : String) (args : ToolArgs) :
    Except String ToolResult :=
  match lookupTool tools name with
  | none => Except.error ("Tool '" ++ name ++ "' not found")
  | some tool => switchMethod name tool args

/-- The `catch` block of the `tools/call` terminal handler: any failure
becomes `{ content: [{type:"text", text:"Error: "+message}], isError:true }`. -/
def errorToolResult (message : String) : ToolResult :=
  { content := [{ type := "text", text := "Error: " ++ message }], isError := true }

/-- The terminal handler of the `tools/call` route: log, dispatch, and
convert any failure of the dispatch into an error `ToolResult` — this
handler itself never throws. -/
def callToolTerminal (tools : ToolRegistry) (name : String) (args : ToolArgs) :
    M ToolResult := fun st =>
  let st1 := pushLog ("Executing tool: " ++ name) st
  match dispatchRaw tools name args with
  | Except.ok result =>
      (Except.ok result, pushLog ("Tool " ++ name ++ " executed successfully") st1)
  | Except.error msg =>
      (Except.ok (errorToolResult msg), pushLog ("Tool execution failed: " ++ msg) st1)

/-- `listDefinitions` of the `tools/list` terminal handler: one
`getDefinition()` per registry entry, in insertion order. -/
def listToolDefs (tools : ToolRegistry) : List ToolDefinition :=
  tools.map (fun p => p.2.getDefinition)

/-- The terminal handler of the `tools/list` route. -/
def listToolsTerminal (tools : ToolRegistry) : M (List ToolDefinition) := fun st =>
  (Except.ok (listToolDefs tools), st)

/-- The middleware chain installed by `setupMiddleware`: logging first,
then rate limiting. -/
def serverMiddlewares {α : Type} (requestsPerMinute : Nat) : List (Middleware α) :=
  [loggingMiddleware, rateLimitMiddleware requestsPerMinute]

/-- The Request Coordinator's `tools/call` route: build the context and
run the middleware chain with the `tools/call` terminal handler. -/
def handleCallTool (requestsPerMinute : Nat) (tools : ToolRegistry)
    (name : String) (args : ToolArgs) (ts : Int) : M ToolResult :=
  execute (serverMiddlewares requestsPerMinute)
    { method := "tools/call", timestamp := ts }
    (fun _ => callToolTerminal tools name args)

/-- The Request Coordinator's `tools/list` route. -/
def handleListTools (requestsPerMinute : Nat) (tools : ToolRegistry) (ts : Int) :
    M (List ToolDefinition) :=
  execute (serverMiddlewares requestsPerMinute)
    { method := "tools/list", timestamp := ts }
    (fun _ => listToolsTerminal tools)

/-! ## Health sampler (`health.ts`) -/

/-- The fixed absolute heap threshold of `HealthChecker`
(`500 * 1024 * 1024`, i.e. 500 MiB). -/
def defaultMemoryThreshold : Nat := 500 * 1024 * 1024

/-- A health snapshot as produced by `getHealthStatus()`. -/
structure HealthStatus where
  status : String
  timestamp : Int
  uptime : Int
  memoryUsed : Nat
  memoryTotal : Nat
  calculatorAvailable : Bool
  fileManagerAvailable : Bool
  deriving Repr, DecidableEq

/-- `HealthChecker.getHealthStatus()`: a freshly computed snapshot whose
status is the pure threshold predicate `heapUsed < memoryThreshold` on the
heap reading at the instant of the call. -/
def getHealthStatus (memoryThreshold : Nat) (startTime now : Int)
    (heapUsed heapTotal : Nat) : HealthStatus :=
  let isHealthy := heapUsed < memoryThreshold
  { status := if isHealthy then "healthy" else "unhealthy"
    timestamp := now
    uptime := now - startTime
    memoryUsed := heapUsed
    memoryTotal := heapTotal
    calculatorAvailable := true
    fileManagerAvailable := true }

-- Sanity checks of the dispatch model.
example :
    dispatchRaw [] "unknown_tool" { fields := [] }
      = Except.error "Tool 'unknown_tool' not found" := by rfl
example :
    (getHealthStatus defaultMemoryThreshold 0 5 1 2).status = "healthy" := by decide

/-! ## Helper lemmas -/

/-- A stage that never invokes its continuation: its outcome does not
depend on `next`. -/
def NextFree {α : Type} (s : Middleware α) : Prop :=
  ∀ context n n', s context n = s context n'

/-- The observable part of the state a JavaScript middleware can reach:
the logger sink and the rate limiter's map — everything in `MState`
except the chain's closure-private cursor. -/
abbrev Obs : Type := List String × (String → List Int)

/-- A stage in the "at most one `next` call" discipline: some effects on
the observable state, then either one invocation of the continuation
followed by post-processing of its outcome, or a short-circuit result.
Its components act on `Obs` only, so such a stage cannot reach the
chain's internal cursor — just as a JavaScript middleware cannot reach
the `index` variable private to `execute`.  `loggingMiddleware` and
`rateLimitMiddleware` are literally of this shape (see
`loggingMiddleware_isOnce` and `rateLimitMiddleware_isOnce`). -/
structure OnceStage (α : Type) where
  before : MWContext → Obs → Obs
  callNext : MWContext → Obs → Bool
  short : MWContext → Obs → Except String α × Obs
  after : MWContext → Except String α → Obs → Except String α × Obs

/-- Interpret an at-most-once stage as a middleware function: run the
`before` effects, then either call `next` once and post-process, or
short-circuit; the cursor field is threaded through untouched. -/
def OnceStage.toMiddleware {α : Type} (o : OnceStage α) : Middleware α :=
  fun context next st =>
    let ob1 := o.before context (st.log, st.requests)
    let st1 := { st with log := ob1.1, requests := ob1.2 }
    if o.callNext context (st.log, st.requests) then
      let r := next () st1
      let r2 := o.after context r.1 (r.2.log, r.2.requests)
      (r2.1, { r.2 with log := r2.2.1, requests := r2.2.2 })
    else
      let r0 := o.short context ob1
      (r0.1, { st1 with log := r0.2.1, requests := r0.2.2 })

/-- `loggingMiddleware` as an at-most-once stage. -/
def loggingOnce {α : Type} : OnceStage α :=
  { before := fun context ob => (ob.1 ++ ["Starting " ++ context.method], ob.2)
    callNext := fun _ _ => true
    short := fun _ ob => (Except.error "unreachable", ob)
    after := fun context r ob =>
      match r with
      | Except.ok v => (Except.ok v, (ob.1 ++ ["Completed " ++ context.method], ob.2))
      | Except.error e =>
          (Except.error e,
            (ob.1 ++ ["Failed " ++ context.method ++ ": " ++ e], ob.2)) }

/-- `rateLimitMiddleware` as an at-most-once stage. -/
def rateLimitOnce {α : Type} (requestsPerMinute : Nat) : OnceStage α :=
  { before := fun context ob =>
      (ob.1, (rateLimitStep requestsPerMinute ob.2 defaultClientId context.timestamp).2)
    callNext := fun context ob =>
      (rateLimitStep requestsPerMinute ob.2 defaultClientId context.timestamp).1
    short := fun _ ob => (Except.error "Rate limit exceeded", ob)
    after := fun _ r ob => (r, ob) }

/-- The two stages the server installs are at-most-once stages. -/
theorem loggingMiddleware_isOnce {α : Type} :
    (loggingMiddleware : Middleware α) = OnceStage.toMiddleware loggingOnce := by
  funext context next st
  simp only [loggingMiddleware, OnceStage.toMiddleware, loggingOnce, pushLog]
  generalize next () { st with log := st.log ++ ["Starting " ++ context.method] } = r
  rcases r with ⟨res, st2⟩
  cases res <;> rfl

theorem rateLimitMiddleware_isOnce {α : Type} (requestsPerMinute : Nat) :
    (rateLimitMiddleware requestsPerMinute : Middleware α)
      = OnceStage.toMiddleware (rateLimitOnce requestsPerMinute) := rfl

/-- Invoking an at-most-once stage with two continuations that agree on
the state the stage would pass them yields the same outcome. -/
theorem toMiddleware_congr {α : Type} (o : OnceStage α) (context : MWContext)
    (n₁ n₂ : Unit → M α) (st : MState)
    (h : n₁ () { st with log := (o.before context (st.log, st.requests)).1,
                         requests := (o.before context (st.log, st.requests)).2 }
       = n₂ () { st with log := (o.before context (st.log, st.requests)).1,
                         requests := (o.before context (st.log, st.requests)).2 }) :
    OnceStage.toMiddleware o context n₁ st = OnceStage.toMiddleware o context n₂ st := by
  unfold OnceStage.toMiddleware
  by_cases hc : o.callNext context (st.log, st.requests)
  · simp only [if_pos hc, h]
  · simp only [if_neg hc]

/-- The cursor-sharing `next` closure treats two chains with the same
at-most-once prefix and the same `next`-free stage after it identically,
whatever the suffixes and terminal handlers: a frame entered inside the
prefix uses its continuation at most once, and the frame that reaches the
`next`-free stage never uses it, so the cursor never passes that stage. -/
theorem nextF_prefix_agree {α : Type} (P : List (OnceStage α)) (s : Middleware α)
    (posts posts' : List (Middleware α)) (context : MWContext)
    (handler handler' : Unit → M α) (hs : NextFree s) :
    ∀ (d : Nat) (st : MState) (fuel₁ fuel₂ : Nat),
      st.index + d = P.length →
      P.length + 1 ≤ st.index + fuel₁ → P.length + 1 ≤ st.index + fuel₂ →
      nextF (P.map OnceStage.toMiddleware ++ s :: posts) context handler fuel₁ () st
        = nextF (P.map OnceStage.toMiddleware ++ s :: posts') context handler' fuel₂ () st := by
  intro d
  induction d with
  | zero =>
      intro st fuel₁ fuel₂ hik hf₁ hf₂
      obtain ⟨f₁, rfl⟩ : ∃ f, fuel₁ = f + 1 := ⟨fuel₁ - 1, by omega⟩
      obtain ⟨f₂, rfl⟩ : ∃ f, fuel₂ = f + 1 := ⟨fuel₂ - 1, by omega⟩
      have hi : st.index = P.length := by omega
      have hget : ∀ (posts'' : List (Middleware α)),
          (P.map OnceStage.toMiddleware ++ s :: posts'')[st.index]? = some s := by
        intro posts''
        rw [List.getElem?_append_right (by simp [hi])]
        simp [hi]
      simp only [nextF, hget]
      exact congrFun (hs context _ _) _
  | succ d ih =>
      intro st fuel₁ fuel₂ hik hf₁ hf₂
      obtain ⟨f₁, rfl⟩ : ∃ f, fuel₁ = f + 1 := ⟨fuel₁ - 1, by omega⟩
      obtain ⟨f₂, rfl⟩ : ∃ f, fuel₂ = f + 1 := ⟨fuel₂ - 1, by omega⟩
      have hi : st.index < P.length := by omega
      have hmapi : st.index < (P.map OnceStage.toMiddleware).length := by
        simpa using hi
      have hget : ∀ (posts'' : List (Middleware α)),
          (P.map OnceStage.toMiddleware ++ s :: posts'')[st.index]?
            = some (OnceStage.toMiddleware (P.get ⟨st.index, hi⟩)) := by
        intro posts''
        rw [List.getElem?_append, if_pos hmapi, List.getElem?_map,
          List.getElem?_eq_getElem hi]
        rfl
      simp only [nextF, hget]
      apply toMiddleware_congr
      apply ih
      · show st.index + 1 + d = P.length
        omega
      · show P.length + 1 ≤ st.index + 1 + f₁
        omega
      · show P.length + 1 ≤ st.index + 1 + f₂
        omega

theorem rateLimitStep_zero (requests : String → List Int) (clientId : String)
    (now : Int) : (rateLimitStep 0 requests clientId now).1 = false := by
  simp [rateLimitStep]

theorem runRL_nonclient (requestsPerMinute : Nat) (requests : String → List Int)
    (hist : List (String × Int)) (c : String) (hne : ∀ p ∈ hist, p.1 ≠ c) :
    runRL requestsPerMinute requests hist c = requests c := by
  induction hist generalizing requests with
  | nil => rfl
  | cons p rest ih =>
      have hpc : p.1 ≠ c := hne p (List.mem_cons_self p rest)
      have hstep : (rateLimitStep requestsPerMinute requests p.1 p.2).2 c = requests c := by
        unfold rateLimitStep
        by_cases h : requestsPerMinute ≤
            ((requests p.1).filter (fun time => p.2 - windowMs < time)).length <;>
          simp [h, Function.update_noteq (Ne.symm hpc)]
      calc runRL requestsPerMinute requests (p :: rest) c
          = runRL requestsPerMinute (rateLimitStep requestsPerMinute requests p.1 p.2).2 rest c := rfl
        _ = (rateLimitStep requestsPerMinute requests p.1 p.2).2 c :=
            ih _ (fun q hq => hne q (List.mem_cons_of_mem p hq))
        _ = requests c := hstep

theorem rateLimitStep_congr (requestsPerMinute : Nat)
    (requests requests' : String → List Int) (c : String) (now : Int)
    (h : requests c = requests' c) :
    (rateLimitStep requestsPerMinute requests c now).1
        = (rateLimitStep requestsPerMinute requests' c now).1 ∧
    (rateLimitStep requestsPerMinute requests c now).2 c
        = (rateLimitStep requestsPerMinute requests' c now).2 c := by
  unfold rateLimitStep
  rw [h]
  by_cases hc : requestsPerMinute ≤
      ((requests' c).filter (fun time => now - windowMs < time)).length <;>
    simp [hc]

/-! ## Claims -/

/-- A stage that returns a fixed result without ever calling `next`. -/
def shortCircuitStage : Middleware Nat := fun _ _ st => (Except.ok 7, st)

/-- A canary stage: leaves a log line and continues. -/
def canaryStage : Middleware Nat := fun _ next st => next () (pushLog "canary ran" st)

/-- A stage that awaits its continuation twice and returns the second
outcome, propagating a failure of the first call unchanged. -/
def doubleCallStage : Middleware Nat := fun _ next st =>
  match next () st with
  | (Except.error e, st1) => (Except.error e, st1)
  | (Except.ok _, st1) => next () st1

/-- Counterexample to C2 as stated: in the chain
`[doubleCallStage, shortCircuitStage, canaryStage]` the stage at position 1
never calls its continuation, yet both the canary stage at position 2 and
the terminal handler execute (their log marks appear in order), and the
chain's result is the handler's value rather than the short-circuiting
stage's `Except.ok 7` — the first stage's second `next()` call resumes the
shared cursor past the short-circuiting stage. -/
theorem c2_next_twice_counterexample :
    NextFree shortCircuitStage ∧
    (execute [doubleCallStage, shortCircuitStage, canaryStage]
        { method := "tools/call", timestamp := 0 }
        (fun _ st => (Except.ok 0, pushLog "terminal ran" st)) initState).2.log
      = ["canary ran", "terminal ran"] ∧
    (execute [doubleCallStage, shortCircuitStage, canaryStage]
        { method := "tools/call", timestamp := 0 }
        (fun _ st => (Except.ok 0, pushLog "terminal ran" st)) initState).1
      = Except.ok 0 ∧
    (Except.ok 0 : Except String Nat) ≠ Except.ok 7 := by
  exact ⟨fun _ _ _ => rfl, by decide, by decide, by decide⟩

/-- C2 (amended): if every stage before position `k` invokes its `next`
continuation at most once — as the repository's logging and rate-limit
stages do — and the stage at position `k` never calls `next`, then no
stage at any position greater than `k` and no terminal handler can
influence the chain's outcome (stages after position `k` and the terminal
handler are interchangeable without changing the result, so none of them
executes), and the short-circuiting stage's own return value (or the
failure it signals) is the result of the chain from that stage on.
Without the at-most-once condition the property fails, because a stage
that calls `next` twice resumes the shared cursor past the
short-circuiting stage (see the counterexample). -/
theorem c2_short_circuit_once {α : Type} (pres : List (OnceStage α))
    (s : Middleware α) (posts posts' : List (Middleware α)) (context : MWContext)
    (handler handler' : Unit → M α) (n : Unit → M α) (st : MState)
    (hs : NextFree s) :
    execute (pres.map OnceStage.toMiddleware ++ s :: posts) context handler st
      = execute (pres.map OnceStage.toMiddleware ++ s :: posts') context handler' st ∧
    execute (s :: posts) context handler st = s context n { st with index := 1 } := by
  constructor
  · unfold execute
    apply nextF_prefix_agree pres s posts posts' context handler handler' hs
        pres.length
    · show 0 + pres.length = pres.length
      omega
    · show pres.length + 1
        ≤ 0 + ((pres.map OnceStage.toMiddleware ++ s :: posts).length + 1)
      simp only [List.length_append, List.length_map, List.length_cons]
      omega
    · show pres.length + 1
        ≤ 0 + ((pres.map OnceStage.toMiddleware ++ s :: posts').length + 1)
      simp only [List.length_append, List.length_map, List.length_cons]
      omega
  · have h1 : execute (s :: posts) context handler st
        = s context (nextF (s :: posts) context handler (posts.length + 1))
            { st with index := 1 } := by
      simp [execute, nextF]
    rw [h1]
    exact congrFun (hs context _ n) _

/-- Witness for C2 (amended): with the at-most-once logging stage in front,
a concrete short-circuiting stage makes the canary stage and the terminal
handler irrelevant, and the chain from the short-circuiting stage on
returns that stage's own value. -/
theorem c2_short_circuit_once_witness :
    (execute [OnceStage.toMiddleware loggingOnce, shortCircuitStage, canaryStage]
        { method := "tools/call", timestamp := 0 }
        (fun _ st => (Except.ok 1, st)) initState
      = execute [OnceStage.toMiddleware loggingOnce, shortCircuitStage]
        { method := "tools/call", timestamp := 0 }
        (fun _ st => (Except.error "never reached", st)) initState) ∧
    execute [shortCircuitStage, canaryStage]
        { method := "tools/call", timestamp := 0 }
        (fun _ st => (Except.ok 1, st)) initState
      = shortCircuitStage { method := "tools/call", timestamp := 0 }
        (fun _ st => (Except.ok 1, st)) { initState with index := 1 } :=
  c2_short_circuit_once [loggingOnce] shortCircuitStage [canaryStage] []
    { method := "tools/call", timestamp := 0 } (fun _ st => (Except.ok 1, st))
    (fun _ st => (Except.error "never reached", st)) (fun _ st => (Except.ok 1, st))
    initState (fun _ _ _ => rfl)

/-- C3: with the admission ceiling at 2, three successive checks for the same
client, all within one sliding window, are admitted, admitted, rejected in
that order, and the rejected check appends no timestamp to the client's
window. -/
theorem c3_ceiling_two (t1 t2 t3 : Int) (h12 : t1 ≤ t2) (h23 : t2 ≤ t3)
    (hwin : t3 < t1 + windowMs) :
    (rateLimitStep 2 (fun _ => []) defaultClientId t1).1 = true ∧
    (rateLimitStep 2 (rateLimitStep 2 (fun _ => []) defaultClientId t1).2
        defaultClientId t2).1 = true ∧
    (rateLimitStep 2 (rateLimitStep 2 (rateLimitStep 2 (fun _ => []) defaultClientId t1).2
        defaultClientId t2).2 defaultClientId t3).1 = false ∧
    (rateLimitStep 2 (rateLimitStep 2 (rateLimitStep 2 (fun _ => []) defaultClientId t1).2
        defaultClientId t2).2 defaultClientId t3).2 defaultClientId = [t1, t2] := by
  have hw : (0 : Int) < windowMs := by norm_num [windowMs]
  have ht1 : t2 - windowMs < t1 := by linarith
  have ht1' : t3 - windowMs < t1 := by linarith
  have ht2' : t3 - windowMs < t2 := by linarith
  refine ⟨by simp [rateLimitStep], ?_, ?_, ?_⟩ <;>
    simp [rateLimitStep, Function.update_same, List.filter, ht1, ht1', ht2']

/-- Witness for C3 at the concrete instants 0, 1, 2. -/
theorem c3_ceiling_two_witness :
    (rateLimitStep 2 (fun _ => []) defaultClientId 0).1 = true ∧
    (rateLimitStep 2 (rateLimitStep 2 (fun _ => []) defaultClientId 0).2
        defaultClientId 1).1 = true ∧
    (rateLimitStep 2 (rateLimitStep 2 (rateLimitStep 2 (fun _ => []) defaultClientId 0).2
        defaultClientId 1).2 defaultClientId 2).1 = false ∧
    (rateLimitStep 2 (rateLimitStep 2 (rateLimitStep 2 (fun _ => []) defaultClientId 0).2
        defaultClientId 1).2 defaultClientId 2).2 defaultClientId = [0, 1] :=
  c3_ceiling_two 0 1 2 (by decide) (by decide) (by decide)

/-- C6: with the admission ceiling configured to 0, every admission check is
rejected regardless of the client's prior request history, and the
rate-limit stage throws `Rate limit exceeded` for every request without
invoking its continuation. -/
theorem c6_zero_ceiling_rejects_all {α : Type} (requests : String → List Int)
    (clientId : String) (now : Int) (context : MWContext)
    (next : Unit → M α) (st : MState) :
    (rateLimitStep 0 requests clientId now).1 = false ∧
    (rateLimitMiddleware 0 context next st).1 = Except.error "Rate limit exceeded" := by
  constructor
  · exact rateLimitStep_zero requests clientId now
  · unfold rateLimitMiddleware
    simp [rateLimitStep_zero]

/-- C9: `getHealthStatus` is a pure threshold predicate on the heap-used
reading at the instant of the call: above the configured threshold the
snapshot's status is `unhealthy`, below it the status is `healthy`. -/
theorem c9_health_threshold (memoryThreshold : Nat) (startTime now : Int)
    (heapUsed heapTotal : Nat) :
    (memoryThreshold < heapUsed →
      (getHealthStatus memoryThreshold startTime now heapUsed heapTotal).status
        = "unhealthy") ∧
    (heapUsed < memoryThreshold →
      (getHealthStatus memoryThreshold startTime now heapUsed heapTotal).status
        = "healthy") := by
  constructor
  · intro h
    simp [getHealthStatus, Nat.not_lt.mpr (Nat.le_of_lt h)]
  · intro h
    simp [getHealthStatus, h]

/-- Witness for C9 at the default 500 MiB threshold: one reading just above
it and one far below it. -/
theorem c9_health_threshold_witness :
    (getHealthStatus defaultMemoryThreshold 0 1 (defaultMemoryThreshold + 1) 0).status
      = "unhealthy" ∧
    (getHealthStatus defaultMemoryThreshold 0 1 0 0).status = "healthy" :=
  ⟨(c9_health_threshold defaultMemoryThreshold 0 1 (defaultMemoryThreshold + 1) 0).1
      (Nat.lt_succ_self _),
   (c9_health_threshold defaultMemoryThreshold 0 1 0 0).2
      (by norm_num [defaultMemoryThreshold])⟩

/-- C10: the `tools/list` terminal handler enumerates one definition per
registered name.  With both tool families enabled, the single
`FileManagerTool` instance registered under `read_file`, `write_file` and
`list_directory` contributes its one `file_operations` definition three
times: the list has four entries, three of which are the identical
`file_operations` definition. -/
theorem c10_list_per_name (calcBody rf wf ld : ToolArgs → Except String ToolResult)
    (st : MState) :
    listToolDefs (initializeTools true true (mkCalculatorTool calcBody)
        (mkFileManagerTool rf wf ld))
      = [calculatorDefinition, fileManagerDefinition, fileManagerDefinition,
         fileManagerDefinition] ∧
    (listToolDefs (initializeTools true true (mkCalculatorTool calcBody)
        (mkFileManagerTool rf wf ld))).length = 4 ∧
    (listToolDefs (initializeTools true true (mkCalculatorTool calcBody)
        (mkFileManagerTool rf wf ld))).count fileManagerDefinition = 3 ∧
    fileManagerDefinition.name = "file_operations" ∧
    (listToolsTerminal (initializeTools true true (mkCalculatorTool calcBody)
        (mkFileManagerTool rf wf ld)) st).1
      = Except.ok [calculatorDefinition, fileManagerDefinition, fileManagerDefinition,
         fileManagerDefinition] := by
  refine ⟨rfl, rfl, ?_, rfl, rfl⟩
  rfl

/-- C4: admission checks for distinct client identifiers are independent:
an arbitrary history of checks attributed only to other clients changes
neither the outcome of a check for this client nor this client's stored
window. -/
theorem c4_client_independence (requestsPerMinute : Nat)
    (requests : String → List Int) (hist : List (String × Int)) (c : String)
    (now : Int) (hne : ∀ p ∈ hist, p.1 ≠ c) :
    (rateLimitStep requestsPerMinute (runRL requestsPerMinute requests hist) c now).1
      = (rateLimitStep requestsPerMinute requests c now).1 ∧
    (rateLimitStep requestsPerMinute (runRL requestsPerMinute requests hist) c now).2 c
      = (rateLimitStep requestsPerMinute requests c now).2 c :=
  rateLimitStep_congr requestsPerMinute _ requests c now
    (runRL_nonclient requestsPerMinute requests hist c hne)

/-- Witness for C4: a check for `default` at time 10 is unaffected by a
prior request from client `other`. -/
theorem c4_client_independence_witness :
    (rateLimitStep 1 (runRL 1 (fun _ => []) [("other", 5)]) "default" 10).1
      = (rateLimitStep 1 (fun _ => []) "default" 10).1 ∧
    (rateLimitStep 1 (runRL 1 (fun _ => []) [("other", 5)]) "default" 10).2 "default"
      = (rateLimitStep 1 (fun _ => []) "default" 10).2 "default" :=
  c4_client_independence 1 (fun _ => []) [("other", 5)] "default" 10 (by decide)

/-- The `tools/call` route, when the rate limiter admits the request,
always resolves (never rejects): its value is the handler's `ToolResult`
on success and the converted error Result on any dispatch failure. -/
theorem handleCallTool_admitted_fst (requestsPerMinute : Nat) (tools : ToolRegistry)
    (name : String) (args : ToolArgs) (ts : Int) (st : MState)
    (hadm : (rateLimitStep requestsPerMinute st.requests defaultClientId ts).1 = true) :
    (handleCallTool requestsPerMinute tools name args ts st).1
      = Except.ok (match dispatchRaw tools name args with
          | Except.ok r => r
          | Except.error m => errorToolResult m) := by
  cases hdr : dispatchRaw tools name args with
  | ok r =>
      simp [handleCallTool, serverMiddlewares, execute, nextF, loggingMiddleware,
        rateLimitMiddleware, callToolTerminal, pushLog, hadm, hdr]
  | error m =>
      simp [handleCallTool, serverMiddlewares, execute, nextF, loggingMiddleware,
        rateLimitMiddleware, callToolTerminal, pushLog, hadm, hdr]

/-- C1 (amended): when the rate limiter admits a `tools/call` request, every
failure arising from the terminal routing (unknown tool, unknown method,
handler failure) is converted into
`{content:[{type:"text", text:"Error: "+message}], isError:true}` and the
route resolves normally — but this conversion lives inside the `tools/call`
terminal handler, not at the chain boundary, so a rate-limit rejection
raised by the middleware stage is not converted (see the counterexample). -/
theorem c1_terminal_conversion (requestsPerMinute : Nat) (tools : ToolRegistry)
    (name : String) (args : ToolArgs) (ts : Int) (st : MState)
    (hadm : (rateLimitStep requestsPerMinute st.requests defaultClientId ts).1 = true) :
    (handleCallTool requestsPerMinute tools name args ts st).1
      = Except.ok (match dispatchRaw tools name args with
          | Except.ok r => r
          | Except.error m => errorToolResult m) ∧
    ∀ m, dispatchRaw tools name args = Except.error m →
      (handleCallTool requestsPerMinute tools name args ts st).1
        = Except.ok { content := [{ type := "text", text := "Error: " ++ m }],
                      isError := true } := by
  refine ⟨handleCallTool_admitted_fst requestsPerMinute tools name args ts st hadm, ?_⟩
  intro m hm
  rw [handleCallTool_admitted_fst requestsPerMinute tools name args ts st hadm, hm]
  rfl

/-- Witness for C1 (amended) at a concrete unknown tool name. -/
theorem c1_terminal_conversion_witness :
    (handleCallTool 60 [] "unknown_tool" { fields := [] } 0 initState).1
      = Except.ok (match dispatchRaw [] "unknown_tool" { fields := [] } with
          | Except.ok r => r
          | Except.error m => errorToolResult m) ∧
    ∀ m, dispatchRaw [] "unknown_tool" { fields := [] } = Except.error m →
      (handleCallTool 60 [] "unknown_tool" { fields := [] } 0 initState).1
        = Except.ok { content := [{ type := "text", text := "Error: " ++ m }],
                      isError := true } :=
  c1_terminal_conversion 60 [] "unknown_tool" { fields := [] } 0 initState (by decide)

/-- Counterexample to C1 as stated: with the ceiling at 0 the rate-limit
stage's failure is not converted anywhere — the Coordinator's `tools/call`
route rejects with the raw `Rate limit exceeded` error, which therefore
propagates past the Coordinator to the transport layer. -/
theorem c1_rate_limit_failure_escapes :
    (handleCallTool 0 [] "calculate" { fields := [] } 0 initState).1
      = Except.error "Rate limit exceeded" := by
  decide

/-- C7: dispatching an unregistered tool name signals the NotFound failure
naming the missing tool, and (when the rate limiter admits the request)
the `tools/call` route converts it into an `isError:true` Result whose
text content contains `not found`. -/
theorem c7_unknown_tool_not_found (requestsPerMinute : Nat) (tools : ToolRegistry)
    (name : String) (args : ToolArgs) (ts : Int) (st : MState)
    (hmiss : lookupTool tools name = none)
    (hadm : (rateLimitStep requestsPerMinute st.requests defaultClientId ts).1 = true) :
    dispatchRaw tools name args = Except.error ("Tool '" ++ name ++ "' not found") ∧
    (handleCallTool requestsPerMinute tools name args ts st).1
      = Except.ok (errorToolResult ("Tool '" ++ name ++ "' not found")) ∧
    (errorToolResult ("Tool '" ++ name ++ "' not found")).isError = true ∧
    ∃ a b : String,
      (errorToolResult ("Tool '" ++ name ++ "' not found")).content
        = [{ type := "text", text := a ++ "not found" ++ b }] := by
  have hdr : dispatchRaw tools name args
      = Except.error ("Tool '" ++ name ++ "' not found") := by
    unfold dispatchRaw
    rw [hmiss]
  refine ⟨hdr, ?_, rfl, ?_⟩
  · rw [handleCallTool_admitted_fst requestsPerMinute tools name args ts st hadm, hdr]
  · refine ⟨"Error: " ++ ("Tool '" ++ (name ++ "' ")), "", ?_⟩
    have h2 : ("' not found" : String) = "' " ++ "not found" := rfl
    simp only [errorToolResult, h2, String.append_assoc, String.append_empty]

/-- Witness for C7 at the concrete name `unknown_tool` on an empty registry. -/
theorem c7_unknown_tool_not_found_witness :
    dispatchRaw [] "unknown_tool" { fields := [] }
      = Except.error ("Tool '" ++ "unknown_tool" ++ "' not found") ∧
    (handleCallTool 60 [] "unknown_tool" { fields := [] } 0 initState).1
      = Except.ok (errorToolResult ("Tool '" ++ "unknown_tool" ++ "' not found")) ∧
    (errorToolResult ("Tool '" ++ "unknown_tool" ++ "' not found")).isError = true ∧
    ∃ a b : String,
      (errorToolResult ("Tool '" ++ "unknown_tool" ++ "' not found")).content
        = [{ type := "text", text := a ++ "not found" ++ b }] :=
  c7_unknown_tool_not_found 60 [] "unknown_tool" { fields := [] } 0 initState rfl
    (by decide)

/-- A fixed successful handler result, used to exhibit registry behaviour. -/
def demoResult : ToolResult :=
  { content := [{ type := "text", text := "demo output" }] }

/-- A tool whose every method returns `demoResult`. -/
def demoTool : Tool :=
  { getDefinition := calculatorDefinition
    calculate := fun _ => Except.ok demoResult
    readFile := fun _ => Except.ok demoResult
    writeFile := fun _ => Except.ok demoResult
    listDirectory := fun _ => Except.ok demoResult }

/-- Counterexample to C8 as stated: a tool registered under the name
`my_tool` (every one of whose methods returns `demoResult`) is found in the
registry, yet dispatching that registered name returns the converted
`Unknown tool method` error Result — not the Result the handler produces —
because the dispatcher's runtime switch only routes the four built-in
names. -/
theorem c8_registered_name_not_dispatched :
    lookupTool (registerTool [] "my_tool" demoTool) "my_tool" = some demoTool ∧
    demoTool.calculate { fields := [] } = Except.ok demoResult ∧
    (handleCallTool 60 (registerTool [] "my_tool" demoTool) "my_tool"
        { fields := [] } 0 initState).1
      = Except.ok (errorToolResult ("Unknown tool method: " ++ "my_tool")) ∧
    errorToolResult ("Unknown tool method: " ++ "my_tool") ≠ demoResult := by
  refine ⟨rfl, rfl, by decide, by decide⟩

/-- Helper: a successful registry lookup contributes its definition to the
`tools/list` enumeration. -/
theorem lookupTool_mem_listToolDefs (tools : ToolRegistry) (name : String)
    (tool : Tool) (h : lookupTool tools name = some tool) :
    tool.getDefinition ∈ listToolDefs tools := by
  unfold lookupTool at h
  cases hf : tools.find? (fun p => p.1 = name) with
  | none => rw [hf] at h; cases h
  | some p =>
      rw [hf] at h
      have h2 : p.2 = tool := by simpa using h
      exact List.mem_map.mpr ⟨p, List.mem_of_find?_eq_some hf, by rw [h2]⟩

/-- C8 (amended): for each tool name the runtime switch can dispatch
(`calculate`, `read_file`, `write_file`, `list_directory` — any other name
yields an `Unknown tool method` error Result instead, see the
counterexample), once the name is registered its definition appears in
`listDefinitions`, and dispatching it returns exactly the Result the
handler produced — no middleware stage and no dispatcher step modifies the
Result's content or isError fields on the way back. -/
theorem c8_round_trip (requestsPerMinute : Nat) (tools : ToolRegistry) (name : String)
    (tool : Tool) (args : ToolArgs) (r : ToolResult) (ts : Int) (st : MState)
    (hlook : lookupTool tools name = some tool)
    (hmethod : switchMethod name tool args = Except.ok r)
    (hadm : (rateLimitStep requestsPerMinute st.requests defaultClientId ts).1 = true) :
    tool.getDefinition ∈ listToolDefs tools ∧
    (handleCallTool requestsPerMinute tools name args ts st).1 = Except.ok r := by
  refine ⟨lookupTool_mem_listToolDefs tools name tool hlook, ?_⟩
  rw [handleCallTool_admitted_fst requestsPerMinute tools name args ts st hadm]
  simp only [dispatchRaw, hlook, hmethod]

/-- Witness for C8 (amended): register `demoTool` under `calculate`, list,
then dispatch; the pipeline returns `demoResult` itself. -/
theorem c8_round_trip_witness :
    demoTool.getDefinition ∈ listToolDefs (registerTool [] "calculate" demoTool) ∧
    (handleCallTool 60 (registerTool [] "calculate" demoTool) "calculate"
        { fields := [] } 0 initState).1 = Except.ok demoResult :=
  c8_round_trip 60 (registerTool [] "calculate" demoTool) "calculate" demoTool
    { fields := [] } demoResult 0 initState rfl rfl (by decide)

/-! ## The sliding-window invariant (C5) -/

theorem runRL_cons (requestsPerMinute : Nat) (requests : String → List Int)
    (q : String × Int) (rest : List (String × Int)) :
    runRL requestsPerMinute requests (q :: rest)
      = runRL requestsPerMinute (rateLimitStep requestsPerMinute requests q.1 q.2).2 rest :=
  rfl

theorem runRL_snoc (requestsPerMinute : Nat) (requests : String → List Int)
    (h : List (String × Int)) (p : String × Int) :
    runRL requestsPerMinute requests (h ++ [p])
      = (rateLimitStep requestsPerMinute (runRL requestsPerMinute requests h) p.1 p.2).2 := by
  unfold runRL
  rw [List.foldl_append]
  rfl

theorem rateLimitStep_snd_other (requestsPerMinute : Nat)
    (requests : String → List Int) (c c' : String) (now : Int) (h : c' ≠ c) :
    (rateLimitStep requestsPerMinute requests c now).2 c' = requests c' := by
  unfold rateLimitStep
  by_cases hr : requestsPerMinute ≤
      ((requests c).filter (fun time => now - windowMs < time)).length <;>
    simp [hr, Function.update_noteq h]

theorem admittedOf_snoc (requestsPerMinute : Nat) :
    ∀ (h : List (String × Int)) (requests : String → List Int)
      (p : String × Int) (c : String),
    admittedOf requestsPerMinute requests (h ++ [p]) c
      = admittedOf requestsPerMinute requests h c
        ++ (if p.1 = c ∧ (rateLimitStep requestsPerMinute
              (runRL requestsPerMinute requests h) p.1 p.2).1
            then [p.2] else []) := by
  intro h
  induction h with
  | nil =>
      intro requests p c
      simp [admittedOf, runRL]
  | cons q rest ih =>
      intro requests p c
      have hstep : admittedOf requestsPerMinute requests ((q :: rest) ++ [p]) c
          = (if q.1 = c ∧ (rateLimitStep requestsPerMinute requests q.1 q.2).1
              then [q.2] else [])
            ++ admittedOf requestsPerMinute
                (rateLimitStep requestsPerMinute requests q.1 q.2).2 (rest ++ [p]) c := rfl
      rw [hstep, ih, runRL_cons, ← List.append_assoc]
      rfl

theorem lastCheck_snoc (c : String) :
    ∀ (h : List (String × Int)) (p : String × Int),
    lastCheck c (h ++ [p]) = if p.1 = c then some p.2 else lastCheck c h := by
  intro h
  induction h with
  | nil => intro p; simp [lastCheck]
  | cons q rest ih =>
      intro p
      have hstep : lastCheck c ((q :: rest) ++ [p])
          = match lastCheck c (rest ++ [p]) with
            | some t => some t
            | none => if q.1 = c then some q.2 else none := rfl
      rw [hstep, ih]
      by_cases hp : p.1 = c
      · rw [if_pos hp, if_pos hp]
      · rw [if_neg hp, if_neg hp]
        rfl

theorem lastCheck_none_forall (c : String) :
    ∀ (h : List (String × Int)), lastCheck c h = none → ∀ p ∈ h, p.1 ≠ c := by
  intro h
  induction h with
  | nil => intro _ p hp; cases hp
  | cons q rest ih =>
      intro hn p hp
      unfold lastCheck at hn
      cases hr : lastCheck c rest with
      | some t => rw [hr] at hn; cases hn
      | none =>
          rw [hr] at hn
          by_cases hq : q.1 = c
          · rw [if_pos hq] at hn; cases hn
          · rcases List.mem_cons.mp hp with heq | hp'
            · rw [heq]; exact hq
            · exact ih hr p hp'

theorem lastCheck_mem (c : String) :
    ∀ (h : List (String × Int)) (t : Int), lastCheck c h = some t → (c, t) ∈ h := by
  intro h
  induction h with
  | nil => intro t ht; cases ht
  | cons q rest ih =>
      intro t ht
      unfold lastCheck at ht
      cases hr : lastCheck c rest with
      | some t' =>
          rw [hr] at ht
          have htt : t' = t := by injection ht
          exact List.mem_cons_of_mem q (htt ▸ ih t' hr)
      | none =>
          rw [hr] at ht
          by_cases hq : q.1 = c
          · rw [if_pos hq] at ht
            injection ht with ht2
            have hqe : q = (c, t) := by rw [← hq, ← ht2]
            rw [← hqe]
            exact List.mem_cons_self q rest
          · rw [if_neg hq] at ht; cases ht

theorem admittedOf_nonclient (requestsPerMinute : Nat) :
    ∀ (h : List (String × Int)) (requests : String → List Int) (c : String),
      (∀ p ∈ h, p.1 ≠ c) → admittedOf requestsPerMinute requests h c = [] := by
  intro h
  induction h with
  | nil => intro requests c _; rfl
  | cons q rest ih =>
      intro requests c hne
      have hq : q.1 ≠ c := hne q (List.mem_cons_self q rest)
      simp only [admittedOf]
      rw [if_neg (by simp [hq]), List.nil_append]
      exact ih _ c (fun p hp => hne p (List.mem_cons_of_mem q hp))

theorem filter_window_comp (last now : Int) (hle : last ≤ now) (l : List Int) :
    (l.filter (fun t => last - windowMs < t)).filter (fun t => now - windowMs < t)
      = l.filter (fun t => now - windowMs < t) := by
  induction l with
  | nil => rfl
  | cons a l ih =>
      by_cases h : now - windowMs < a
      · have h' : last - windowMs < a := by linarith
        simp [List.filter_cons, h, h', ih]
      · by_cases h' : last - windowMs < a <;> simp [List.filter_cons, h, h', ih]

/-- Counterexample to C5 as stated: after one admitted request at time 0,
the stored sequence for `default` still has length 1 at the instant 70000,
although no admission lies within the trailing window at that instant —
between checks, lazy pruning leaves stale entries in place. -/
theorem c5_stale_entry_counterexample :
    runRL 1 (fun _ => []) [("default", 0)] "default" = [0] ∧
    (admittedOf 1 (fun _ => []) [("default", 0)] "default").filter
        (fun t => (70000 : Int) - windowMs < t) = [] ∧
    (runRL 1 (fun _ => []) [("default", 0)] "default").length
      ≠ ((admittedOf 1 (fun _ => []) [("default", 0)] "default").filter
          (fun t => (70000 : Int) - windowMs < t)).length := by
  refine ⟨?_, ?_, ?_⟩ <;> decide

/-- C5 (amended): for every client and every time-ordered history of
admission checks starting from an empty limiter, the stored per-client
sequence observed at the instant of that client's most recent check equals
that client's admissions within the trailing 60-unit window of that check
(so its length counts exactly those admissions); entries are pruned only
lazily, at checks, so between checks older entries may persist (see the
counterexample).  A client never checked has an empty stored sequence. -/
theorem c5_window_invariant (requestsPerMinute : Nat) (hist : List (String × Int))
    (c : String) (hmono : TimesMono hist) :
    runRL requestsPerMinute (fun _ => []) hist c
      = match lastCheck c hist with
        | none => []
        | some last =>
            (admittedOf requestsPerMinute (fun _ => []) hist c).filter
              (fun t => last - windowMs < t) := by
  have hw : (0 : Int) < windowMs := by norm_num [windowMs]
  induction hist using List.reverseRecOn with
  | nil => rfl
  | append_singleton h p ih =>
      have hmono' : List.Pairwise (fun a b => a.2 ≤ b.2) (h ++ [p]) := hmono
      rw [List.pairwise_append] at hmono'
      obtain ⟨hmh, -, hle⟩ := hmono'
      have hle' : ∀ a ∈ h, a.2 ≤ p.2 := fun a ha => hle a ha p (by simp)
      have ihh := ih hmh
      obtain ⟨cid, now⟩ := p
      rw [runRL_snoc, admittedOf_snoc, lastCheck_snoc]
      by_cases hc : cid = c
      · subst hc
        simp only [eq_self_iff_true, if_true, true_and]
        cases hlc : lastCheck cid h with
        | none =>
            have hne := lastCheck_none_forall cid h hlc
            have hrun : runRL requestsPerMinute (fun _ => []) h cid = [] :=
              runRL_nonclient requestsPerMinute (fun _ => []) h cid hne
            have hadm : admittedOf requestsPerMinute (fun _ => []) h cid = [] :=
              admittedOf_nonclient requestsPerMinute h (fun _ => []) cid hne
            by_cases hr : requestsPerMinute = 0
            · subst hr
              simp [rateLimitStep, hrun, hadm, Function.update_same]
            · simp [rateLimitStep, hrun, hadm, Function.update_same, Nat.le_zero, hr,
                sub_lt_self now hw]
        | some last =>
            rw [hlc] at ihh
            have hmem := lastCheck_mem cid h last hlc
            have hlast_le : last ≤ now := hle' (cid, last) hmem
            have hRfilter : (runRL requestsPerMinute (fun _ => []) h cid).filter
                (fun t => now - windowMs < t)
              = (admittedOf requestsPerMinute (fun _ => []) h cid).filter
                (fun t => now - windowMs < t) := by
              rw [ihh]
              exact filter_window_comp last now hlast_le _
            by_cases hr : requestsPerMinute ≤
                ((runRL requestsPerMinute (fun _ => []) h cid).filter
                  (fun t => now - windowMs < t)).length
            · have hstep_eq : rateLimitStep requestsPerMinute
                  (runRL requestsPerMinute (fun _ => []) h) cid now
                  = (false, Function.update (runRL requestsPerMinute (fun _ => []) h) cid
                      ((runRL requestsPerMinute (fun _ => []) h cid).filter
                        (fun t => now - windowMs < t))) := by
                unfold rateLimitStep
                rw [if_pos hr]
              rw [hstep_eq]
              simp [Function.update_same, hRfilter]
            · have hstep_eq : rateLimitStep requestsPerMinute
                  (runRL requestsPerMinute (fun _ => []) h) cid now
                  = (true, Function.update (runRL requestsPerMinute (fun _ => []) h) cid
                      ((runRL requestsPerMinute (fun _ => []) h cid).filter
                        (fun t => now - windowMs < t) ++ [now])) := by
                unfold rateLimitStep
                rw [if_neg hr]
              rw [hstep_eq]
              simp [Function.update_same, hRfilter, List.filter_append,
                sub_lt_self now hw]
      · rw [if_neg hc]
        have hstep : (rateLimitStep requestsPerMinute
            (runRL requestsPerMinute (fun _ => []) h) cid now).2 c
              = runRL requestsPerMinute (fun _ => []) h c :=
          rateLimitStep_snd_other requestsPerMinute _ cid c now (Ne.symm hc)
        rw [hstep, if_neg (by simp [hc]), List.append_nil]
        exact ihh

/-- Witness for C5 (amended): a two-check history for `default` with ceiling
1 — admitted at 0, rejected at 1 — where the stored window equals the
admissions within the trailing window of the last check. -/
theorem c5_window_invariant_witness :
    runRL 1 (fun _ => []) [("default", 0), ("default", 1)] "default"
      = match lastCheck "default" [("default", 0), ("default", 1)] with
        | none => []
        | some last =>
            (admittedOf 1 (fun _ => []) [("default", 0), ("default", 1)] "default").filter
              (fun t => last - windowMs < t) :=
  c5_window_invariant 1 [("default", 0), ("default", 1)] "default" (by decide)
